import Mathlib

/-!
Verification of the optima-core tracing subsystem.

Shallow embedding of the Python sources:
  - `optima_core/tracing/ids.py` — trace/request identifier generation and parsing;
  - `optima_core/tracing/context.py` — the contextvars-backed context store,
    modelled as a pure `TraceContext` record passed explicitly (one record per
    logical task, which is exactly the isolation `contextvars.ContextVar`
    provides to cooperatively scheduled tasks and to threads);
  - `optima_core/tracing/middleware.py` — `TracingMiddleware.dispatch` and
    `get_trace_headers`, with the nondeterministic inputs (clock, random bytes,
    environment, handler outcome) passed as explicit parameters;
  - `optima_core/http/client.py` — `TracedHttpClient._merge_headers`.

Machine-level conventions: Python strings are `String` (lists of characters),
`secrets.token_hex(6)` is modelled by its six random bytes, `time.time()` by a
natural number of seconds, and the float millisecond latency by a natural
number of hundredths of a millisecond.
-/

namespace OptimaCore

/-! ### Hexadecimal characters and Python `int(s, 16)` -/

/-- Lowercase hexadecimal digit characters, as Python's `format(n, "x")` and
`secrets.token_hex` emit them (`'*'` out of range, never reachable from bytes). -/
def hexDigitChar (d : Nat) : Char :=
  "0123456789abcdef".data.getD d '*'

/-- Characters accepted as hexadecimal digits by Python's base-16 `int`. -/
def isHexDigit (c : Char) : Bool :=
  ('0' ≤ c && c ≤ '9') || ('a' ≤ c && c ≤ 'f') || ('A' ≤ c && c ≤ 'F')

/-- Numeric value of a hexadecimal digit character. -/
def hexVal (c : Char) : Nat :=
  if '0' ≤ c ∧ c ≤ '9' then c.toNat - '0'.toNat
  else if 'a' ≤ c ∧ c ≤ 'f' then c.toNat - 'a'.toNat + 10
  else if 'A' ≤ c ∧ c ≤ 'F' then c.toNat - 'A'.toNat + 10
  else 0

/-- Digit run of Python's base-16 `int`: hexadecimal digits with single
underscores allowed between digits, accumulating into `acc`. -/
def hexRun : List Char → Nat → Option Nat
  | [], acc => some acc
  | c :: rest, acc =>
    if c = '_' then
      match rest with
      | [] => none
      | c2 :: rest2 => if isHexDigit c2 then hexRun rest2 (acc * 16 + hexVal c2) else none
    else if isHexDigit c then hexRun rest (acc * 16 + hexVal c) else none

/-- A digit run must begin with a digit (an underscore may not lead). -/
def hexStart : List Char → Option Nat
  | [] => none
  | c :: rest => if isHexDigit c then hexRun rest (hexVal c) else none

/-- Body of Python's base-16 `int` after sign handling: an optional `0x`/`0X`
base marker (with one optional underscore after it), then the digit run. -/
def pyIntHex16core (l : List Char) : Option Nat :=
  if l.take 2 = ['0', 'x'] ∨ l.take 2 = ['0', 'X'] then
    let rest := l.drop 2
    if rest.head? = some '_' then hexStart rest.tail else hexStart rest
  else hexStart l

/-- ASCII whitespace stripped by Python's `int`. -/
def isAsciiSpace (c : Char) : Bool :=
  c = ' ' || c = '\t' || c = '\n' || c = '\r' || c = Char.ofNat 11 || c = Char.ofNat 12

/-- Strip leading and trailing ASCII whitespace. -/
def stripAsciiSpaces (l : List Char) : List Char :=
  ((l.dropWhile isAsciiSpace).reverse.dropWhile isAsciiSpace).reverse

/-- Sign handling of Python's base-16 `int`, on the whitespace-stripped text. -/
def pyIntHex16signed (l : List Char) : Option Int :=
  if l.head? = some '+' then (pyIntHex16core l.tail).map (fun n => (n : Int))
  else if l.head? = some '-' then (pyIntHex16core l.tail).map (fun n => -(n : Int))
  else (pyIntHex16core l).map (fun n => (n : Int))

/-- Model of Python's `int(s, 16)`: surrounding whitespace, an optional sign,
an optional `0x` marker, then underscore-separated hexadecimal digits.
`none` models the `ValueError` that `parse_trace_id` catches. -/
def pyIntHex16 (s : String) : Option Int :=
  pyIntHex16signed (stripAsciiSpaces s.data)

/-! ### `str.split` / `str.join` on a single-character separator -/

/-- Python's `s.split(sep)` for a one-character separator: every occurrence
splits, empty segments are kept, and `"".split(sep) == [""]`. -/
def splitOnChar (sep : Char) : List Char → List (List Char)
  | [] => [[]]
  | c :: rest =>
    let r := splitOnChar sep rest
    if c = sep then [] :: r
    else
      match r with
      | [] => [[c]]
      | h :: t => (c :: h) :: t

/-- Python's `"-".join(parts)`. -/
def joinDash : List (List Char) → List Char
  | [] => []
  | x :: xs =>
    match xs with
    | [] => x
    | _ :: _ => x ++ '-' :: joinDash xs

/-! ### `optima_core/tracing/ids.py` -/

/-- Rendering of `format(n, "x")`: lowercase hexadecimal, no padding, `"0"`
for zero. -/
def natToHexList (n : Nat) : List Char :=
  if _h : n < 16 then [hexDigitChar n]
  else natToHexList (n / 16) ++ [hexDigitChar (n % 16)]
decreasing_by exact Nat.div_lt_self (by omega) (by omega)

/-- `secrets.token_hex` applied to the given random bytes: two lowercase
hexadecimal characters per byte. -/
def token_hex (randomBytes : List Nat) : List Char :=
  (randomBytes.map (fun b => [hexDigitChar (b / 16), hexDigitChar (b % 16)])).flatten

/-- `generate_trace_id`: `f"{timestamp_hex}-{random_hex}-{service_short}"`,
with the clock reading and the six random bytes passed explicitly. -/
def generate_trace_id (now : Nat) (randomBytes : List Nat)
    (service_short : String := "svc") : String :=
  String.mk (natToHexList now ++ '-' :: (token_hex randomBytes ++ '-' :: service_short.data))

/-- `generate_request_id`: `f"{pfx}_{random_hex}"`. -/
def generate_request_id (randomBytes : List Nat) (pfx : String := "req") : String :=
  String.mk (pfx.data ++ '_' :: token_hex randomBytes)

/-- Result dictionary of `parse_trace_id`: either the valid record with the
three recovered fields, or the invalid record echoing the raw input. -/
inductive ParseResult where
  | valid (timestamp : Int) (random : String) (service_short : String)
  | invalid (raw : String)
deriving DecidableEq

/-- Body of `parse_trace_id` on the split segments: with at least three of
them, convert the first from hexadecimal (a failed conversion is the caught
`ValueError` and yields the invalid record), keep the second, and rejoin the
remainder as the service short. -/
def parseParts (raw : String) (parts : List (List Char)) : ParseResult :=
  if 3 ≤ parts.length then
    match pyIntHex16 (String.mk (parts.headD [])) with
    | some ts =>
        ParseResult.valid ts (String.mk (parts.getD 1 [])) (String.mk (joinDash (parts.drop 2)))
    | none => ParseResult.invalid raw
  else ParseResult.invalid raw

/-- `parse_trace_id`: split on `"-"` and process the segments; the raw input
is echoed back in the invalid record. -/
def parse_trace_id (trace_id : String) : ParseResult :=
  parseParts trace_id (splitOnChar '-' trace_id.data)

/-- Timestamp component of a parse result, when valid. -/
def ParseResult.timestampOf : ParseResult → Option Int
  | ParseResult.valid ts _ _ => some ts
  | ParseResult.invalid _ => none

/-! ### `optima_core/tracing/context.py`

Each logical task owns one `TraceContext` record: `contextvars.ContextVar`
gives every cooperatively scheduled task (and every thread) its own copy of
the three variables, so the store is modelled by explicit state passing, one
state per task. -/

/-- The three context variables of one logical task. -/
structure TraceContext where
  trace_id : Option String := none
  request_id : Option String := none
  parent_span_id : Option String := none
deriving DecidableEq

/-- `get_trace_id()` — read of `_trace_id_var` in the calling task. -/
def get_trace_id (st : TraceContext) : Option String := st.trace_id

/-- `get_request_id()` — read of `_request_id_var` in the calling task. -/
def get_request_id (st : TraceContext) : Option String := st.request_id

/-- `get_parent_span_id()` — read of `_parent_span_id_var` in the calling task. -/
def get_parent_span_id (st : TraceContext) : Option String := st.parent_span_id

/-- `set_trace_context`: each variable is written only when the corresponding
argument is not `None`. -/
def set_trace_context (trace_id request_id parent_span_id : Option String)
    (st : TraceContext) : TraceContext :=
  { trace_id := match trace_id with | some v => some v | none => st.trace_id
    request_id := match request_id with | some v => some v | none => st.request_id
    parent_span_id := match parent_span_id with | some v => some v | none => st.parent_span_id }

/-- `clear_trace_context`: all three variables reset to `None`. -/
def clear_trace_context (_st : TraceContext) : TraceContext :=
  { trace_id := none, request_id := none, parent_span_id := none }

/-- `get_current_context`: snapshot of the three getters. -/
def get_current_context (st : TraceContext) : TraceContext :=
  { trace_id := get_trace_id st
    request_id := get_request_id st
    parent_span_id := get_parent_span_id st }

/-! ### Header and dictionary operations

Starlette's `Headers.get` and `MutableHeaders.__setitem__` are
case-insensitive on names; Python's plain `dict` (used by
`get_trace_headers` and `_merge_headers`) is case-sensitive. -/

/-- Python `name.lower()` on a header name, character by character. -/
def lowerName (s : String) : String :=
  String.mk (s.data.map Char.toLower)

/-- Starlette `request.headers.get(name)`: first entry whose name matches
case-insensitively. -/
def headerGet (hs : List (String × String)) (k : String) : Option String :=
  match hs with
  | [] => none
  | (k', v) :: t => if lowerName k' = lowerName k then some v else headerGet t k

/-- Remove every entry whose name matches case-insensitively. -/
def headerDel (hs : List (String × String)) (k : String) : List (String × String) :=
  match hs with
  | [] => []
  | (k', v) :: t => if lowerName k' = lowerName k then headerDel t k else (k', v) :: headerDel t k

/-- Starlette `response.headers[name] = value`: replace the first
case-insensitive match, drop later duplicates, else append. -/
def headerSet (hs : List (String × String)) (k v : String) : List (String × String) :=
  match hs with
  | [] => [(k, v)]
  | (k', v') :: t =>
    if lowerName k' = lowerName k then (k, v) :: headerDel t k else (k', v') :: headerSet t k v

/-- Python `d[k]` lookup on a dictionary modelled as an entry list. -/
def dictGet (d : List (String × String)) (k : String) : Option String :=
  match d with
  | [] => none
  | (k', v) :: t => if k' = k then some v else dictGet t k

/-- Python `d[k] = v`: overwrite in place when the key exists, else append. -/
def dictSet (d : List (String × String)) (k v : String) : List (String × String) :=
  match d with
  | [] => [(k, v)]
  | (k', v') :: t => if k' = k then (k, v) :: t else (k', v') :: dictSet t k v

/-- Python `d.update(other)`: assign the other dictionary's entries in order. -/
def dictUpdate (d other : List (String × String)) : List (String × String) :=
  other.foldl (fun acc kv => dictSet acc kv.1 kv.2) d

/-! ### `optima_core/tracing/middleware.py` -/

/-- Middleware configuration (`TracingMiddleware.__init__` fields plus the
build metadata's short commit). -/
structure MwConfig where
  service_name : String
  service_short : String
  skip_paths : List String
  log_requests : Bool
  short_commit : String
deriving DecidableEq

/-- Inbound request as `dispatch` consumes it. -/
structure Request where
  method : String
  path : String
  headers : List (String × String)
deriving DecidableEq

/-- Handler response: status code and mutable header list. -/
structure Response where
  status_code : Nat
  headers : List (String × String)
deriving DecidableEq

/-- A handler exception, preserved by its type name and message. -/
structure Exn where
  ty : String
  msg : String
deriving DecidableEq

/-- Log lines `dispatch` can emit, with the latency in hundredths of a
millisecond. -/
inductive LogLine where
  | started (method path : String)
  | completed (method path : String) (status : Nat) (durCenti : Nat)
  | failed (method path : String) (durCenti : Nat) (error : String)
deriving DecidableEq

/-- Two-decimal rendering of a latency held in hundredths of a millisecond
(the `f"{duration_ms:.2f}"` of the source, in fixed point). -/
def format2f (centi : Nat) : String :=
  Nat.repr (centi / 100) ++ "." ++ (if centi % 100 < 10 then "0" else "") ++ Nat.repr (centi % 100)

/-- Line 63 of the middleware:
`request.headers.get(TRACE_ID_HEADER) or generate_trace_id(self.service_short)` —
Python's `or` falls through on `None` and on the empty string. -/
def resolveTraceId (cfg : MwConfig) (req : Request) (now : Nat) (tb : List Nat) : String :=
  match headerGet req.headers "X-Trace-ID" with
  | some v => if v = "" then generate_trace_id now tb cfg.service_short else v
  | none => generate_trace_id now tb cfg.service_short

/-- What one call of `TracingMiddleware.dispatch` produces: the re-raised or
returned outcome, the calling task's context store after the `finally`, and
the emitted log lines. -/
structure DispatchOut where
  result : Except Exn Response
  ctx : TraceContext
  logs : List LogLine

/-- `TracingMiddleware.dispatch`, with the nondeterministic inputs explicit:
`deployment_id` is `os.getenv("DEPLOYMENT_ID")`, `now`/`tb`/`rb` feed the id
generators, `durCenti` is the measured latency, and `handlerResult` is what
`await call_next(request)` did. -/
def dispatch (cfg : MwConfig) (deployment_id : Option String) (req : Request)
    (now : Nat) (tb rb : List Nat) (durCenti : Nat)
    (handlerResult : Except Exn Response) (st : TraceContext) : DispatchOut :=
  let trace_id := resolveTraceId cfg req now tb
  let request_id := generate_request_id rb cfg.service_short
  let parent_span_id := headerGet req.headers "X-Parent-Span-ID"
  let st1 := set_trace_context (some trace_id) (some request_id) parent_span_id st
  let should_log := cfg.log_requests && !(cfg.skip_paths.contains req.path)
  let logs0 := if should_log then [LogLine.started req.method req.path] else []
  match handlerResult with
  | Except.ok resp =>
    let logs1 := logs0 ++
      (if should_log then [LogLine.completed req.method req.path resp.status_code durCenti]
       else [])
    let hs := headerSet resp.headers "X-Trace-ID" trace_id
    let hs := headerSet hs "X-Request-ID" request_id
    let hs := headerSet hs "X-Response-Time" (format2f durCenti ++ "ms")
    let hs := headerSet hs "X-Served-By" (cfg.service_name ++ "-" ++ cfg.short_commit)
    let hs :=
      match deployment_id with
      | some d => if d = "" then hs else headerSet hs "X-Deployment-ID" d
      | none => hs
    { result := Except.ok { resp with headers := hs }
      ctx := clear_trace_context st1
      logs := logs1 }
  | Except.error e =>
    { result := Except.error e
      ctx := clear_trace_context st1
      logs := logs0 ++ [LogLine.failed req.method req.path durCenti e.msg] }

/-- `get_trace_headers`, reading the calling task's context store and
`os.getenv("DEPLOYMENT_ID")`; Python's `if value:` drops `None` and the
empty string. -/
def get_trace_headers (st : TraceContext) (deployment_id : Option String) :
    List (String × String) :=
  let hs : List (String × String) := []
  let hs :=
    match get_trace_id st with
    | some t => if t = "" then hs else dictSet hs "X-Trace-ID" t
    | none => hs
  let hs :=
    match get_request_id st with
    | some r => if r = "" then hs else dictSet hs "X-Parent-Span-ID" r
    | none => hs
  match deployment_id with
  | some d => if d = "" then hs else dictSet hs "X-Deployment-ID" d
  | none => hs

/-- `TracedHttpClient._merge_headers`: the trace headers, updated by the
caller's dictionary when one was given. -/
def merge_headers (st : TraceContext) (deployment_id : Option String)
    (headers : List (String × String)) : List (String × String) :=
  if headers.isEmpty then get_trace_headers st deployment_id
  else dictUpdate (get_trace_headers st deployment_id) headers

/-! ### Two cooperatively scheduled tasks sharing the store

`contextvars` scopes each variable to the running task, so a system of two
logical tasks is a pair of `TraceContext` states; a schedule says which task
runs its next statement at each step, every interleaving being some schedule. -/

/-- One statement of a logical task: a `set_trace_context` call carrying a
trace id, or a `get_trace_id` read. -/
inductive TaskAct where
  | setT (v : String)
  | readT
deriving DecidableEq

/-- A task that sets its trace id once and then reads it back `n` times, with
cooperative suspension possible between any two statements. -/
def progT (v : String) (n : Nat) : List TaskAct :=
  TaskAct.setT v :: List.replicate n TaskAct.readT

/-- Run two tasks under a schedule (`true` = task A runs its next statement,
`false` = task B); each read is recorded with the task that performed it.
A scheduled task with no statements left just yields. -/
def runTasks : List Bool → List TaskAct → List TaskAct → TraceContext → TraceContext →
    List (Bool × Option String)
  | [], _, _, _, _ => []
  | true :: sch, pA, pB, sA, sB =>
    match pA with
    | [] => runTasks sch [] pB sA sB
    | TaskAct.setT v :: rest => runTasks sch rest pB (set_trace_context (some v) none none sA) sB
    | TaskAct.readT :: rest => (true, get_trace_id sA) :: runTasks sch rest pB sA sB
  | false :: sch, pA, pB, sA, sB =>
    match pB with
    | [] => runTasks sch pA [] sA sB
    | TaskAct.setT v :: rest => runTasks sch pA rest sA (set_trace_context (some v) none none sB)
    | TaskAct.readT :: rest => (false, get_trace_id sB) :: runTasks sch pA rest sA sB

/-- Every recorded read observes its own task's value. -/
def readsObserve (x y : String) (reads : List (Bool × Option String)) : Bool :=
  reads.all (fun r => if r.1 then r.2 == some x else r.2 == some y)

/-- Invariant of one task during a run: it has not yet executed its
`set_trace_context` statement (its program still begins with it), or it has,
and its own store holds its own trace id. -/
def okTask (x : String) (p : List TaskAct) (s : TraceContext) : Prop :=
  (∃ n, p = progT x n) ∨
    ((∃ n, p = List.replicate n TaskAct.readT) ∧ s.trace_id = some x)

/-- The header mutation chain of the success branch of `dispatch`, named for
the lookup lemmas: trace id, request id, response time, served-by, in the
order the source assigns them (the deployment header may follow). -/
def successHeaders (cfg : MwConfig) (req : Request) (now : Nat) (tb rb : List Nat)
    (dur : Nat) (resp : Response) : List (String × String) :=
  headerSet (headerSet (headerSet (headerSet resp.headers
    "X-Trace-ID" (resolveTraceId cfg req now tb))
    "X-Request-ID" (generate_request_id rb cfg.service_short))
    "X-Response-Time" (format2f dur ++ "ms"))
    "X-Served-By" (cfg.service_name ++ "-" ++ cfg.short_commit)

/-! ### Lemmas: splitting and joining -/

theorem splitOnChar_ne_nil (sep : Char) (l : List Char) : splitOnChar sep l ≠ [] := by
  induction l with
  | nil => simp [splitOnChar]
  | cons c rest ih =>
    simp only [splitOnChar]
    split
    · simp
    · match h : splitOnChar sep rest with
      | [] => exact absurd h ih
      | x :: xs => simp [h]

theorem splitOnChar_no_sep (sep : Char) (l : List Char) (h : ∀ c ∈ l, c ≠ sep) :
    splitOnChar sep l = [l] := by
  induction l with
  | nil => simp [splitOnChar]
  | cons c rest ih =>
    have hc : c ≠ sep := h c (by simp)
    have hrest := ih (fun x hx => h x (by simp [hx]))
    simp [splitOnChar, hc, hrest]

theorem splitOnChar_append (sep : Char) (l rest : List Char) (h : ∀ c ∈ l, c ≠ sep) :
    splitOnChar sep (l ++ sep :: rest) = l :: splitOnChar sep rest := by
  induction l with
  | nil => simp [splitOnChar]
  | cons c t ih =>
    have hc : c ≠ sep := h c (by simp)
    have ht := ih (fun x hx => h x (by simp [hx]))
    simp [splitOnChar, hc, ht]

theorem joinDash_splitOnChar (l : List Char) : joinDash (splitOnChar '-' l) = l := by
  induction l with
  | nil => rfl
  | cons c rest ih =>
    simp only [splitOnChar]
    by_cases hc : c = '-'
    · subst hc
      simp only [if_pos rfl]
      match h : splitOnChar '-' rest with
      | [] => exact absurd h (splitOnChar_ne_nil _ _)
      | x :: xs =>
        rw [h] at ih
        show '-' :: joinDash (x :: xs) = '-' :: rest
        rw [ih]
    · simp only [if_neg hc]
      match h : splitOnChar '-' rest with
      | [] => exact absurd h (splitOnChar_ne_nil _ _)
      | x :: xs =>
        rw [h] at ih
        match xs with
        | [] =>
          show c :: x = c :: rest
          rw [← ih]
          rfl
        | y :: ys =>
          show (c :: x) ++ '-' :: joinDash (y :: ys) = c :: rest
          rw [← ih]
          rfl

/-! ### Lemmas: hexadecimal characters -/

theorem hexDigitChar_props (d : Nat) :
    hexDigitChar d ≠ '-' ∧ hexDigitChar d ≠ '_' ∧ hexDigitChar d ≠ '+' ∧
    isAsciiSpace (hexDigitChar d) = false ∧ hexDigitChar d ≠ 'x' ∧ hexDigitChar d ≠ 'X' := by
  by_cases h : d < 16
  · interval_cases d <;> decide
  · have he : hexDigitChar d = '*' := by
      unfold hexDigitChar
      apply List.getD_eq_default
      simp only [not_lt] at h
      have h16 : ("0123456789abcdef".data).length = 16 := by rfl
      omega
    rw [he]
    decide

theorem hexVal_hexDigitChar (d : Nat) (h : d < 16) :
    hexVal (hexDigitChar d) = d ∧ isHexDigit (hexDigitChar d) = true := by
  interval_cases d <;> decide

theorem isHexDigit_ne_underscore (c : Char) (h : isHexDigit c = true) : c ≠ '_' := by
  intro he
  subst he
  exact absurd h (by decide)

/-! ### Lemmas: digit runs and the hexadecimal roundtrip -/

theorem hexRun_digits (l : List Char) (acc : Nat) (h : ∀ c ∈ l, isHexDigit c = true) :
    hexRun l acc = some (l.foldl (fun a c => a * 16 + hexVal c) acc) := by
  induction l generalizing acc with
  | nil => simp [hexRun]
  | cons c rest ih =>
    have hc : isHexDigit c = true := h c (by simp)
    have hcu : c ≠ '_' := isHexDigit_ne_underscore c hc
    rw [hexRun.eq_def]
    simp only [List.foldl_cons]
    simp only [if_neg hcu, if_pos hc]
    exact ih (acc * 16 + hexVal c) (fun x hx => h x (by simp [hx]))

theorem hexStart_digits (l : List Char) (h : ∀ c ∈ l, isHexDigit c = true) (hne : l ≠ []) :
    hexStart l = some (l.foldl (fun a c => a * 16 + hexVal c) 0) := by
  match l with
  | [] => exact absurd rfl hne
  | c :: rest =>
    have hc : isHexDigit c = true := h c (by simp)
    simp only [hexStart, if_pos hc, List.foldl_cons, Nat.zero_mul, Nat.zero_add]
    exact hexRun_digits rest (hexVal c) (fun x hx => h x (by simp [hx]))

theorem natToHexList_ne_nil (n : Nat) : natToHexList n ≠ [] := by
  rw [natToHexList]
  split
  · exact List.cons_ne_nil _ _
  · intro h
    have := List.append_eq_nil.mp h
    simp at this

theorem mem_natToHexList (n : Nat) (c : Char) (h : c ∈ natToHexList n) :
    ∃ d, d < 16 ∧ c = hexDigitChar d := by
  induction n using Nat.strong_induction_on with
  | _ n ih =>
    rw [natToHexList] at h
    split at h
    · simp at h
      exact ⟨n, by omega, h⟩
    · rename_i hge
      rw [List.mem_append] at h
      rcases h with h | h
      · exact ih (n / 16) (Nat.div_lt_self (by omega) (by omega)) h
      · simp at h
        exact ⟨n % 16, Nat.mod_lt _ (by omega), h⟩

theorem foldl_natToHexList (n : Nat) :
    ∀ acc, (natToHexList n).foldl (fun a c => a * 16 + hexVal c) acc =
      acc * 16 ^ (natToHexList n).length + n := by
  induction n using Nat.strong_induction_on with
  | _ n ih =>
    intro acc
    rw [natToHexList]
    split
    · rename_i hlt
      simp [List.foldl_cons, (hexVal_hexDigitChar n hlt).1]
    · rename_i hge
      rw [List.foldl_append, List.length_append]
      rw [ih (n / 16) (Nat.div_lt_self (by omega) (by omega)) acc]
      simp only [List.foldl_cons, List.foldl_nil, List.length_cons, List.length_nil]
      have hv : hexVal (hexDigitChar (n % 16)) = n % 16 :=
        (hexVal_hexDigitChar (n % 16) (Nat.mod_lt _ (by omega))).1
      rw [hv, pow_succ]
      have := Nat.div_add_mod n 16
      ring_nf
      omega

theorem mem_natToHexList_props (n : Nat) (c : Char) (h : c ∈ natToHexList n) :
    isHexDigit c = true ∧ c ≠ '-' ∧ isAsciiSpace c = false ∧ c ≠ '+' ∧ c ≠ 'x' ∧ c ≠ 'X' := by
  obtain ⟨d, hd, rfl⟩ := mem_natToHexList n c h
  obtain ⟨h1, _h2, h3, h4, h5, h6⟩ := hexDigitChar_props d
  exact ⟨(hexVal_hexDigitChar d hd).2, h1, h4, h3, h5, h6⟩

theorem dropWhile_no_space (l : List Char) (h : ∀ c ∈ l, isAsciiSpace c = false) :
    l.dropWhile isAsciiSpace = l := by
  cases l with
  | nil => rfl
  | cons c t => simp [List.dropWhile_cons, h c (by simp)]

theorem stripAsciiSpaces_id (l : List Char) (h : ∀ c ∈ l, isAsciiSpace c = false) :
    stripAsciiSpaces l = l := by
  unfold stripAsciiSpaces
  rw [dropWhile_no_space l h]
  rw [dropWhile_no_space l.reverse (fun c hc => h c (List.mem_reverse.mp hc))]
  exact List.reverse_reverse l

theorem pyIntHex16_natToHex (n : Nat) :
    pyIntHex16 (String.mk (natToHexList n)) = some (Int.ofNat n) := by
  have hprops : ∀ c ∈ natToHexList n,
      isHexDigit c = true ∧ c ≠ '-' ∧ isAsciiSpace c = false ∧ c ≠ '+' ∧ c ≠ 'x' ∧ c ≠ 'X' :=
    fun c hc => mem_natToHexList_props n c hc
  have hstrip : stripAsciiSpaces (natToHexList n) = natToHexList n :=
    stripAsciiSpaces_id _ (fun c hc => (hprops c hc).2.2.1)
  have hne := natToHexList_ne_nil n
  have hcore : pyIntHex16core (natToHexList n) = some n := by
    have htake : ¬((natToHexList n).take 2 = ['0', 'x'] ∨ (natToHexList n).take 2 = ['0', 'X']) := by
      rintro (h2 | h2)
      · have hx : 'x' ∈ (natToHexList n).take 2 := by rw [h2]; simp
        exact (hprops 'x' (List.take_subset _ _ hx)).2.2.2.2.1 rfl
      · have hx : 'X' ∈ (natToHexList n).take 2 := by rw [h2]; simp
        exact (hprops 'X' (List.take_subset _ _ hx)).2.2.2.2.2 rfl
    unfold pyIntHex16core
    rw [if_neg htake]
    rw [hexStart_digits _ (fun c hc => (hprops c hc).1) hne]
    rw [foldl_natToHexList n 0]
    simp
  obtain ⟨c, t, hl⟩ : ∃ c t, natToHexList n = c :: t := by
    cases h' : natToHexList n with
    | nil => exact absurd h' hne
    | cons c t => exact ⟨c, t, rfl⟩
  have hcp : c ≠ '+' := (hprops c (by rw [hl]; simp)).2.2.2.1
  have hcm : c ≠ '-' := (hprops c (by rw [hl]; simp)).2.1
  show pyIntHex16signed (stripAsciiSpaces (String.mk (natToHexList n)).data) = some (Int.ofNat n)
  rw [show (String.mk (natToHexList n)).data = natToHexList n from rfl, hstrip]
  unfold pyIntHex16signed
  rw [hl]
  rw [if_neg (by simp [hcp]), if_neg (by simp [hcm])]
  rw [← hl, hcore]
  rfl

/-! ### Lemmas: the random segment -/

theorem token_hex_cons (b : Nat) (t : List Nat) :
    token_hex (b :: t) = hexDigitChar (b / 16) :: hexDigitChar (b % 16) :: token_hex t := rfl

theorem mem_token_hex (bs : List Nat) (c : Char) (h : c ∈ token_hex bs) :
    ∃ d, c = hexDigitChar d := by
  induction bs with
  | nil => simp [token_hex] at h
  | cons b t ih =>
    rw [token_hex_cons] at h
    simp only [List.mem_cons] at h
    rcases h with rfl | rfl | h
    · exact ⟨b / 16, rfl⟩
    · exact ⟨b % 16, rfl⟩
    · exact ih (by simpa [List.mem_cons] using h)

theorem token_hex_ne_dash (bs : List Nat) (c : Char) (h : c ∈ token_hex bs) : c ≠ '-' := by
  obtain ⟨d, rfl⟩ := mem_token_hex bs c h
  exact (hexDigitChar_props d).1

theorem mem_token_hex_isHexDigit (bs : List Nat) (hb : ∀ x ∈ bs, x < 256) (c : Char)
    (h : c ∈ token_hex bs) : isHexDigit c = true := by
  induction bs with
  | nil => simp [token_hex] at h
  | cons b t ih =>
    have hblt : b < 256 := hb b (by simp)
    rw [token_hex_cons] at h
    simp only [List.mem_cons] at h
    rcases h with rfl | rfl | h
    · exact (hexVal_hexDigitChar (b / 16) (by omega)).2
    · exact (hexVal_hexDigitChar (b % 16) (by omega)).2
    · exact ih (fun x hx => hb x (by simp [hx])) (by simpa [List.mem_cons] using h)

theorem token_hex_length (bs : List Nat) : (token_hex bs).length = 2 * bs.length := by
  induction bs with
  | nil => rfl
  | cons b t ih =>
    rw [token_hex_cons]
    simp only [List.length_cons, ih]
    omega

/-! ### Lemmas: generated identifiers under split and parse -/

theorem splitOnChar_generate (now : Nat) (b : List Nat) (s : String) :
    splitOnChar '-' (generate_trace_id now b s).data =
      natToHexList now :: token_hex b :: splitOnChar '-' s.data := by
  show splitOnChar '-' (natToHexList now ++ '-' :: (token_hex b ++ '-' :: s.data)) = _
  rw [splitOnChar_append '-' _ _ (fun c hc => (mem_natToHexList_props now c hc).2.1)]
  rw [splitOnChar_append '-' _ _ (fun c hc => token_hex_ne_dash b c hc)]

theorem parse_generate (now : Nat) (b : List Nat) (s : String) :
    parse_trace_id (generate_trace_id now b s) =
      ParseResult.valid (Int.ofNat now) (String.mk (token_hex b)) s := by
  unfold parse_trace_id
  rw [splitOnChar_generate]
  unfold parseParts
  have hne := splitOnChar_ne_nil '-' s.data
  have hlen : 3 ≤ (natToHexList now :: token_hex b :: splitOnChar '-' s.data).length := by
    simp only [List.length_cons]
    have : 0 < (splitOnChar '-' s.data).length := List.length_pos.mpr hne
    omega
  rw [if_pos hlen]
  rw [show (natToHexList now :: token_hex b :: splitOnChar '-' s.data).headD [] =
    natToHexList now from rfl]
  rw [pyIntHex16_natToHex]
  rw [show (natToHexList now :: token_hex b :: splitOnChar '-' s.data).getD 1 [] =
    token_hex b from rfl]
  rw [show (natToHexList now :: token_hex b :: splitOnChar '-' s.data).drop 2 =
    splitOnChar '-' s.data from rfl]
  rw [joinDash_splitOnChar]

/-! ### Claims about the identifier generator -/

/-- C5: `parse_trace_id` is total (modelled as a function into `ParseResult`)
and returns the invalid record echoing the raw input exactly when the input
has fewer than three separator-delimited segments or its first segment is not
hexadecimal as the base-16 integer conversion of the source accepts it;
`"invalid"` is echoed invalid, and `"a-b-my-service"` parses valid with the
separator-containing service short rejoined. -/
theorem parse_trace_id_validity (raw : String) :
    (parse_trace_id raw = ParseResult.invalid raw ↔
      ((splitOnChar '-' raw.data).length < 3 ∨
        pyIntHex16 (String.mk ((splitOnChar '-' raw.data).headD [])) = none)) ∧
    parse_trace_id "invalid" = ParseResult.invalid "invalid" ∧
    parse_trace_id "a-b-my-service" = ParseResult.valid 10 "b" "my-service" := by
  refine ⟨?_, by decide, by decide⟩
  unfold parse_trace_id parseParts
  by_cases h3 : 3 ≤ (splitOnChar '-' raw.data).length
  · rw [if_pos h3]
    cases hx : pyIntHex16 (String.mk ((splitOnChar '-' raw.data).headD [])) with
    | none => simp [hx]
    | some ts =>
      simp only [hx]
      constructor
      · intro h
        exact absurd h (by simp)
      · intro h
        rcases h with h | h
        · omega
        · exact absurd h (by simp)
  · rw [if_neg h3]
    simp only [not_le] at h3
    simp [h3]

/-- C6: round-trip — for a service short free of the separator, the generated
trace id has exactly three separator-delimited top-level segments, and parsing
recovers the timestamp as an integer, the 12-hexadecimal-character random
segment, and the service short. -/
theorem generate_parse_roundtrip (s : String) (now : Nat) (b : List Nat)
    (hsep : '-' ∉ s.data) (hlen : b.length = 6) (hb : ∀ x ∈ b, x < 256) :
    (splitOnChar '-' (generate_trace_id now b s).data).length = 3 ∧
    parse_trace_id (generate_trace_id now b s) =
      ParseResult.valid (Int.ofNat now) (String.mk (token_hex b)) s ∧
    (String.mk (token_hex b)).length = 12 ∧
    (∀ c ∈ token_hex b, isHexDigit c = true) := by
  refine ⟨?_, parse_generate now b s, ?_, fun c hc => mem_token_hex_isHexDigit b hb c hc⟩
  · rw [splitOnChar_generate]
    rw [splitOnChar_no_sep '-' s.data (fun c hc hceq => hsep (hceq ▸ hc))]
    rfl
  · show (token_hex b).length = 12
    rw [token_hex_length, hlen]

/-- Witness for C6: the round trip evaluated at one concrete generation. -/
theorem generate_parse_roundtrip_witness :
    parse_trace_id (generate_trace_id 1700000000 [241, 226, 211, 196, 181, 166] "auth") =
      ParseResult.valid (Int.ofNat 1700000000)
        (String.mk (token_hex [241, 226, 211, 196, 181, 166])) "auth" :=
  (generate_parse_roundtrip "auth" 1700000000 [241, 226, 211, 196, 181, 166]
    (by decide) (by decide) (by decide)).2.1

/-- C7: the timestamp decoded from a trace id generated at the earlier clock
reading is at most the one decoded at the later reading — the hexadecimal
timestamp encoding composed with parsing is monotone in generation time. -/
theorem generate_timestamp_monotone (t1 t2 : Nat) (b1 b2 : List Nat) (s1 s2 : String)
    (h : t1 ≤ t2) :
    ∃ ts1 ts2 : Int,
      (parse_trace_id (generate_trace_id t1 b1 s1)).timestampOf = some ts1 ∧
      (parse_trace_id (generate_trace_id t2 b2 s2)).timestampOf = some ts2 ∧
      ts1 ≤ ts2 := by
  refine ⟨Int.ofNat t1, Int.ofNat t2, ?_, ?_, ?_⟩
  · rw [parse_generate]
    rfl
  · rw [parse_generate]
    rfl
  · exact Int.ofNat_le.mpr h

/-- Witness for C7 at two concrete generations. -/
theorem generate_timestamp_monotone_witness :
    ∃ ts1 ts2 : Int,
      (parse_trace_id (generate_trace_id 5 [1, 2, 3, 4, 5, 6] "a")).timestampOf = some ts1 ∧
      (parse_trace_id (generate_trace_id 9 [6, 5, 4, 3, 2, 1] "b")).timestampOf = some ts2 ∧
      ts1 ≤ ts2 :=
  generate_timestamp_monotone 5 9 [1, 2, 3, 4, 5, 6] [6, 5, 4, 3, 2, 1] "a" "b" (by decide)

/-! ### Claims about the context store -/

/-- C8: `set_trace_context` updates exactly the fields passed with a value;
an omitted (`None`) field keeps its prior value, and the all-omitted call
leaves the whole context unchanged. -/
theorem set_trace_context_frame (st : TraceContext) (tid rid pid : Option String) :
    (tid = none → (set_trace_context tid rid pid st).trace_id = st.trace_id) ∧
    (∀ v, tid = some v → (set_trace_context tid rid pid st).trace_id = some v) ∧
    (rid = none → (set_trace_context tid rid pid st).request_id = st.request_id) ∧
    (∀ v, rid = some v → (set_trace_context tid rid pid st).request_id = some v) ∧
    (pid = none → (set_trace_context tid rid pid st).parent_span_id = st.parent_span_id) ∧
    (∀ v, pid = some v → (set_trace_context tid rid pid st).parent_span_id = some v) ∧
    set_trace_context none none none st = st := by
  refine ⟨?_, ?_, ?_, ?_, ?_, ?_, rfl⟩
  · rintro rfl
    rfl
  · rintro v rfl
    rfl
  · rintro rfl
    rfl
  · rintro v rfl
    rfl
  · rintro rfl
    rfl
  · rintro v rfl
    rfl

theorem readsObserve_cons (x y : String) (r : Bool × Option String)
    (rest : List (Bool × Option String)) :
    readsObserve x y (r :: rest) =
      ((if r.1 then r.2 == some x else r.2 == some y) && readsObserve x y rest) := rfl

theorem runTasks_observe (sch : List Bool) :
    ∀ pA pB sA sB x y, okTask x pA sA → okTask y pB sB →
      readsObserve x y (runTasks sch pA pB sA sB) = true := by
  induction sch with
  | nil => intro pA pB sA sB x y _ _; rfl
  | cons t sch ih =>
    intro pA pB sA sB x y hA hB
    cases t with
    | true =>
      rcases hA with ⟨n, rfl⟩ | ⟨⟨n, rfl⟩, hs⟩
      · exact ih (List.replicate n TaskAct.readT) pB
          (set_trace_context (some x) none none sA) sB x y (Or.inr ⟨⟨n, rfl⟩, rfl⟩) hB
      · cases n with
        | zero => exact ih [] pB sA sB x y (Or.inr ⟨⟨0, rfl⟩, hs⟩) hB
        | succ k =>
          have hred : runTasks (true :: sch) (List.replicate (k + 1) TaskAct.readT) pB sA sB =
              (true, get_trace_id sA) :: runTasks sch (List.replicate k TaskAct.readT) pB sA sB :=
            rfl
          rw [hred, readsObserve_cons, Bool.and_eq_true]
          refine ⟨by simp [get_trace_id, hs], ?_⟩
          exact ih (List.replicate k TaskAct.readT) pB sA sB x y (Or.inr ⟨⟨k, rfl⟩, hs⟩) hB
    | false =>
      rcases hB with ⟨n, rfl⟩ | ⟨⟨n, rfl⟩, hs⟩
      · exact ih pA (List.replicate n TaskAct.readT) sA
          (set_trace_context (some y) none none sB) x y hA (Or.inr ⟨⟨n, rfl⟩, rfl⟩)
      · cases n with
        | zero => exact ih pA [] sA sB x y hA (Or.inr ⟨⟨0, rfl⟩, hs⟩)
        | succ k =>
          have hred : runTasks (false :: sch) pA (List.replicate (k + 1) TaskAct.readT) sA sB =
              (false, get_trace_id sB) :: runTasks sch pA (List.replicate k TaskAct.readT) sA sB :=
            rfl
          rw [hred, readsObserve_cons, Bool.and_eq_true]
          refine ⟨by simp [get_trace_id, hs], ?_⟩
          exact ih pA (List.replicate k TaskAct.readT) sA sB x y hA (Or.inr ⟨⟨k, rfl⟩, hs⟩)

/-! ### Lemmas: header and dictionary lookups -/

theorem headerGet_cons (a b : String) (t : List (String × String)) (k : String) :
    headerGet ((a, b) :: t) k =
      if lowerName a = lowerName k then some b else headerGet t k := rfl

theorem headerDel_cons (a b : String) (t : List (String × String)) (k : String) :
    headerDel ((a, b) :: t) k =
      if lowerName a = lowerName k then headerDel t k else (a, b) :: headerDel t k := rfl

theorem headerSet_cons (a b : String) (t : List (String × String)) (k v : String) :
    headerSet ((a, b) :: t) k v =
      if lowerName a = lowerName k then (k, v) :: headerDel t k
      else (a, b) :: headerSet t k v := rfl

theorem headerGet_headerDel (hs : List (String × String)) (k k' : String) :
    headerGet (headerDel hs k) k' =
      if lowerName k' = lowerName k then none else headerGet hs k' := by
  induction hs with
  | nil =>
    show (none : Option String) = if lowerName k' = lowerName k then none else none
    exact (ite_self (none : Option String)).symm
  | cons p t ih =>
    obtain ⟨a, b⟩ := p
    rw [headerDel_cons]
    by_cases hak : lowerName a = lowerName k
    · rw [if_pos hak, ih]
      by_cases hk : lowerName k' = lowerName k
      · rw [if_pos hk, if_pos hk]
      · have hak' : ¬(lowerName a = lowerName k') := fun hh => hk (hh ▸ hak)
        rw [if_neg hk, if_neg hk, headerGet_cons, if_neg hak']
    · rw [if_neg hak, headerGet_cons]
      by_cases hak' : lowerName a = lowerName k'
      · have hk : ¬(lowerName k' = lowerName k) := fun hh => hak (by rw [hak', hh])
        rw [if_pos hak', if_neg hk, headerGet_cons, if_pos hak']
      · rw [if_neg hak', ih, headerGet_cons, if_neg hak']

theorem headerGet_headerSet (hs : List (String × String)) (k v k' : String) :
    headerGet (headerSet hs k v) k' =
      if lowerName k' = lowerName k then some v else headerGet hs k' := by
  induction hs with
  | nil =>
    rw [show headerSet [] k v = [(k, v)] from rfl, headerGet_cons]
    by_cases hk : lowerName k' = lowerName k
    · rw [if_pos hk.symm, if_pos hk]
    · rw [if_neg (fun hh => hk hh.symm), if_neg hk]
  | cons p t ih =>
    obtain ⟨a, b⟩ := p
    rw [headerSet_cons]
    by_cases hak : lowerName a = lowerName k
    · rw [if_pos hak, headerGet_cons]
      by_cases hk : lowerName k' = lowerName k
      · rw [if_pos hk.symm, if_pos hk]
      · have hak' : ¬(lowerName a = lowerName k') := fun hh => hk (hh ▸ hak)
        rw [if_neg (fun hh => hk hh.symm), headerGet_headerDel, if_neg hk, if_neg hk,
          headerGet_cons, if_neg hak']
    · rw [if_neg hak, headerGet_cons]
      by_cases hak' : lowerName a = lowerName k'
      · have hk : ¬(lowerName k' = lowerName k) := fun hh => hak (by rw [hak', hh])
        rw [if_pos hak', if_neg hk, headerGet_cons, if_pos hak']
      · rw [if_neg hak', ih]
        by_cases hk : lowerName k' = lowerName k
        · rw [if_pos hk, if_pos hk]
        · rw [if_neg hk, if_neg hk, headerGet_cons, if_neg hak']

theorem dictGet_cons (a b : String) (t : List (String × String)) (k : String) :
    dictGet ((a, b) :: t) k = if a = k then some b else dictGet t k := rfl

theorem dictSet_cons (a b : String) (t : List (String × String)) (k v : String) :
    dictSet ((a, b) :: t) k v =
      if a = k then (k, v) :: t else (a, b) :: dictSet t k v := rfl

theorem dictGet_dictSet (d : List (String × String)) (k v k' : String) :
    dictGet (dictSet d k v) k' = if k = k' then some v else dictGet d k' := by
  induction d with
  | nil =>
    rw [show dictSet [] k v = [(k, v)] from rfl, dictGet_cons]
  | cons p t ih =>
    obtain ⟨a, b⟩ := p
    rw [dictSet_cons]
    by_cases hak : a = k
    · subst hak
      rw [if_pos rfl, dictGet_cons, dictGet_cons]
      by_cases hk : a = k'
      · rw [if_pos hk, if_pos hk]
      · rw [if_neg hk, if_neg hk, if_neg hk]
    · rw [if_neg hak, dictGet_cons]
      by_cases hak' : a = k'
      · subst hak'
        rw [if_pos rfl, if_neg (fun hh => hak hh.symm), dictGet_cons, if_pos rfl]
      · rw [if_neg hak', ih]
        by_cases hk : k = k'
        · rw [if_pos hk, if_pos hk]
        · rw [if_neg hk, if_neg hk, dictGet_cons, if_neg hak']

theorem dictGet_of_not_mem (d : List (String × String)) (k : String)
    (h : k ∉ d.map Prod.fst) : dictGet d k = none := by
  induction d with
  | nil => rfl
  | cons p t ih =>
    obtain ⟨a, b⟩ := p
    simp only [List.map_cons, List.mem_cons] at h
    push_neg at h
    rw [dictGet_cons, if_neg (fun hh => h.1 hh.symm)]
    exact ih h.2

theorem dictGet_dictUpdate (d other : List (String × String)) (k : String)
    (h : (other.map Prod.fst).Nodup) :
    dictGet (dictUpdate d other) k =
      (dictGet other k).orElse (fun _ => dictGet d k) := by
  induction other generalizing d with
  | nil => rfl
  | cons p t ih =>
    obtain ⟨a, b⟩ := p
    have hcons : a ∉ t.map Prod.fst ∧ (t.map Prod.fst).Nodup := by
      rw [List.map_cons, List.nodup_cons] at h
      exact h
    rw [show dictUpdate d ((a, b) :: t) = dictUpdate (dictSet d a b) t from rfl]
    rw [ih (dictSet d a b) hcons.2]
    by_cases hak : a = k
    · subst hak
      rw [dictGet_of_not_mem t a hcons.1]
      show dictGet (dictSet d a b) a = (dictGet ((a, b) :: t) a).orElse (fun _ => dictGet d a)
      rw [dictGet_dictSet, if_pos rfl, dictGet_cons, if_pos rfl]
      rfl
    · rw [dictGet_cons, if_neg hak]
      cases hx : dictGet t k with
      | some w => rfl
      | none =>
        show dictGet (dictSet d a b) k = dictGet d k
        rw [dictGet_dictSet, if_neg hak]

/-! ### Claims about the middleware failure path and the header mapper -/

/-- C2: when the handler raises, `dispatch` re-raises the very same exception
(type and message preserved), always logs the request-failed line whatever the
skip set and logging flag say, and leaves the calling task's context store
cleared, so a read immediately after finds all three fields empty. -/
theorem dispatch_failure_path (cfg : MwConfig) (dep : Option String) (req : Request)
    (now : Nat) (tb rb : List Nat) (dur : Nat) (e : Exn) (st : TraceContext) :
    (dispatch cfg dep req now tb rb dur (Except.error e) st).result = Except.error e ∧
    LogLine.failed req.method req.path dur e.msg ∈
      (dispatch cfg dep req now tb rb dur (Except.error e) st).logs ∧
    (dispatch cfg dep req now tb rb dur (Except.error e) st).ctx =
      { trace_id := none, request_id := none, parent_span_id := none } ∧
    get_current_context (dispatch cfg dep req now tb rb dur (Except.error e) st).ctx =
      { trace_id := none, request_id := none, parent_span_id := none } := by
  refine ⟨rfl, ?_, rfl, rfl⟩
  have hlogs : (dispatch cfg dep req now tb rb dur (Except.error e) st).logs =
      (if cfg.log_requests && !(cfg.skip_paths.contains req.path)
       then [LogLine.started req.method req.path] else []) ++
      [LogLine.failed req.method req.path dur e.msg] := rfl
  rw [hlogs]
  exact List.mem_append.mpr (Or.inr (by simp))

/-- Branch-free form of `get_trace_headers`: one optional entry per field. -/
theorem get_trace_headers_eq (st : TraceContext) (dep : Option String) :
    get_trace_headers st dep =
      (match st.trace_id with
       | some t => if t = "" then [] else [("X-Trace-ID", t)]
       | none => []) ++
      (match st.request_id with
       | some r => if r = "" then [] else [("X-Parent-Span-ID", r)]
       | none => []) ++
      (match dep with
       | some d => if d = "" then [] else [("X-Deployment-ID", d)]
       | none => []) := by
  obtain ⟨tid, rid, pid⟩ := st
  rcases tid with _ | t <;> rcases rid with _ | r <;> rcases dep with _ | d <;>
    simp only [get_trace_headers, get_trace_id, get_request_id] <;>
    (try split_ifs) <;> rfl

/-- C3: `get_trace_headers` emits exactly the trace-id header when a non-empty
trace id is set, the parent-span-id header carrying the current request id
when a non-empty request id is set, and the deployment header when one is
configured — nothing else, never an empty value, and the empty context with no
deployment yields the empty mapping. -/
theorem get_trace_headers_spec (st : TraceContext) (dep : Option String) (k v : String) :
    ((k, v) ∈ get_trace_headers st dep ↔
      (k = "X-Trace-ID" ∧ st.trace_id = some v ∧ v ≠ "") ∨
      (k = "X-Parent-Span-ID" ∧ st.request_id = some v ∧ v ≠ "") ∨
      (k = "X-Deployment-ID" ∧ dep = some v ∧ v ≠ "")) ∧
    get_trace_headers { trace_id := none, request_id := none, parent_span_id := none }
      none = [] := by
  refine ⟨?_, rfl⟩
  rw [get_trace_headers_eq]
  obtain ⟨tid, rid, pid⟩ := st
  rcases tid with _ | t <;> rcases rid with _ | r <;> rcases dep with _ | d <;>
    simp only [] <;> (try split_ifs) <;>
    simp_all [List.mem_append, Prod.mk.injEq] <;> aesop

/-- C9: the outbound client's header merge looks up every key at the caller's
dictionary first and at the mapper's trace headers second: both are contained,
and the caller wins every collision. -/
theorem merge_headers_precedence (st : TraceContext) (dep : Option String)
    (caller : List (String × String)) (k : String)
    (hnd : (caller.map Prod.fst).Nodup) :
    dictGet (merge_headers st dep caller) k =
      (dictGet caller k).orElse (fun _ => dictGet (get_trace_headers st dep) k) := by
  unfold merge_headers
  by_cases hc : caller.isEmpty
  · rw [if_pos hc]
    have hnil : caller = [] := List.isEmpty_iff.mp hc
    subst hnil
    rfl
  · rw [if_neg hc]
    exact dictGet_dictUpdate _ _ _ hnd

/-- Witness for C9 at a concrete store, deployment id and caller dictionary
colliding on the trace-id key. -/
theorem merge_headers_precedence_witness :
    dictGet (merge_headers
        { trace_id := some "t", request_id := some "r", parent_span_id := none }
        (some "d") [("X-Trace-ID", "mine"), ("K", "w")]) "X-Trace-ID" =
      (dictGet [("X-Trace-ID", "mine"), ("K", "w")] "X-Trace-ID").orElse
        (fun _ => dictGet (get_trace_headers
          { trace_id := some "t", request_id := some "r", parent_span_id := none }
          (some "d")) "X-Trace-ID") :=
  merge_headers_precedence _ _ _ _ (by decide)

/-- C1: context store isolation — for every cooperative interleaving of two
logical tasks that each call `set_trace_context` with their own trace id and
then read any number of times across suspension points, every read by task A
observes A's id and every read by task B observes B's id. -/
theorem context_store_isolation (sch : List Bool) (n m : Nat) (x y : String) :
    readsObserve x y (runTasks sch (progT x n) (progT y m)
      { trace_id := none, request_id := none, parent_span_id := none }
      { trace_id := none, request_id := none, parent_span_id := none }) = true :=
  runTasks_observe sch (progT x n) (progT y m) _ _ x y (Or.inl ⟨n, rfl⟩) (Or.inl ⟨m, rfl⟩)

/-! ### Lemmas: the success branch of `dispatch` -/

theorem dispatch_ok_result_none (cfg : MwConfig) (req : Request) (now : Nat)
    (tb rb : List Nat) (dur : Nat) (resp : Response) (st : TraceContext) :
    (dispatch cfg none req now tb rb dur (Except.ok resp) st).result =
      Except.ok { resp with headers := successHeaders cfg req now tb rb dur resp } := rfl

theorem dispatch_ok_result_some (cfg : MwConfig) (d : String) (req : Request) (now : Nat)
    (tb rb : List Nat) (dur : Nat) (resp : Response) (st : TraceContext) :
    (dispatch cfg (some d) req now tb rb dur (Except.ok resp) st).result =
      Except.ok { resp with headers :=
        (if d = "" then successHeaders cfg req now tb rb dur resp
         else headerSet (successHeaders cfg req now tb rb dur resp) "X-Deployment-ID" d) } := rfl

theorem successHeaders_trace (cfg : MwConfig) (req : Request) (now : Nat)
    (tb rb : List Nat) (dur : Nat) (resp : Response) :
    headerGet (successHeaders cfg req now tb rb dur resp) "X-Trace-ID" =
      some (resolveTraceId cfg req now tb) := by
  unfold successHeaders
  rw [headerGet_headerSet, if_neg (by decide : ¬(lowerName "X-Trace-ID" = lowerName "X-Served-By")),
    headerGet_headerSet, if_neg (by decide : ¬(lowerName "X-Trace-ID" = lowerName "X-Response-Time")),
    headerGet_headerSet, if_neg (by decide : ¬(lowerName "X-Trace-ID" = lowerName "X-Request-ID")),
    headerGet_headerSet, if_pos rfl]

theorem successHeaders_request (cfg : MwConfig) (req : Request) (now : Nat)
    (tb rb : List Nat) (dur : Nat) (resp : Response) :
    headerGet (successHeaders cfg req now tb rb dur resp) "X-Request-ID" =
      some (generate_request_id rb cfg.service_short) := by
  unfold successHeaders
  rw [headerGet_headerSet, if_neg (by decide : ¬(lowerName "X-Request-ID" = lowerName "X-Served-By")),
    headerGet_headerSet, if_neg (by decide : ¬(lowerName "X-Request-ID" = lowerName "X-Response-Time")),
    headerGet_headerSet, if_pos rfl]

theorem successHeaders_time (cfg : MwConfig) (req : Request) (now : Nat)
    (tb rb : List Nat) (dur : Nat) (resp : Response) :
    headerGet (successHeaders cfg req now tb rb dur resp) "X-Response-Time" =
      some (format2f dur ++ "ms") := by
  unfold successHeaders
  rw [headerGet_headerSet, if_neg (by decide : ¬(lowerName "X-Response-Time" = lowerName "X-Served-By")),
    headerGet_headerSet, if_pos rfl]

theorem successHeaders_served (cfg : MwConfig) (req : Request) (now : Nat)
    (tb rb : List Nat) (dur : Nat) (resp : Response) :
    headerGet (successHeaders cfg req now tb rb dur resp) "X-Served-By" =
      some (cfg.service_name ++ "-" ++ cfg.short_commit) := by
  unfold successHeaders
  rw [headerGet_headerSet, if_pos rfl]

theorem successHeaders_deployment (cfg : MwConfig) (req : Request) (now : Nat)
    (tb rb : List Nat) (dur : Nat) (resp : Response) :
    headerGet (successHeaders cfg req now tb rb dur resp) "X-Deployment-ID" =
      headerGet resp.headers "X-Deployment-ID" := by
  unfold successHeaders
  rw [headerGet_headerSet, if_neg (by decide : ¬(lowerName "X-Deployment-ID" = lowerName "X-Served-By")),
    headerGet_headerSet, if_neg (by decide : ¬(lowerName "X-Deployment-ID" = lowerName "X-Response-Time")),
    headerGet_headerSet, if_neg (by decide : ¬(lowerName "X-Deployment-ID" = lowerName "X-Request-ID")),
    headerGet_headerSet, if_neg (by decide : ¬(lowerName "X-Deployment-ID" = lowerName "X-Trace-ID"))]

/-- C4: on normal handler return, the response carries the trace id (the
inbound one echoed exactly when supplied non-empty, else a generated one
ending in `-<service_short>`), a fresh request id starting with
`<service_short>_`, a response time of the form `<ms>ms`, a served-by value
`<service_name>-<short_build_id>`, and the deployment header exactly when a
deployment identifier is configured. -/
theorem dispatch_success_headers (cfg : MwConfig) (dep : Option String) (req : Request)
    (now : Nat) (tb rb : List Nat) (dur : Nat) (resp : Response) (st : TraceContext) :
    ∃ resp2,
      (dispatch cfg dep req now tb rb dur (Except.ok resp) st).result = Except.ok resp2 ∧
      headerGet resp2.headers "X-Trace-ID" = some (resolveTraceId cfg req now tb) ∧
      (∀ w, headerGet req.headers "X-Trace-ID" = some w → w ≠ "" →
        resolveTraceId cfg req now tb = w) ∧
      ((headerGet req.headers "X-Trace-ID" = none ∨
          headerGet req.headers "X-Trace-ID" = some "") →
        resolveTraceId cfg req now tb = generate_trace_id now tb cfg.service_short) ∧
      (∃ p, generate_trace_id now tb cfg.service_short = p ++ "-" ++ cfg.service_short) ∧
      headerGet resp2.headers "X-Request-ID" =
        some (generate_request_id rb cfg.service_short) ∧
      (∃ sfx, generate_request_id rb cfg.service_short = cfg.service_short ++ "_" ++ sfx) ∧
      (∃ t, headerGet resp2.headers "X-Response-Time" = some (t ++ "ms")) ∧
      headerGet resp2.headers "X-Served-By" =
        some (cfg.service_name ++ "-" ++ cfg.short_commit) ∧
      (∀ d, dep = some d → d ≠ "" →
        headerGet resp2.headers "X-Deployment-ID" = some d) ∧
      ((dep = none ∨ dep = some "") →
        headerGet resp2.headers "X-Deployment-ID" = headerGet resp.headers "X-Deployment-ID") := by
  have hresolve_echo : ∀ w, headerGet req.headers "X-Trace-ID" = some w → w ≠ "" →
      resolveTraceId cfg req now tb = w := by
    intro w hw hne
    simp [resolveTraceId, hw, hne]
  have hresolve_gen : (headerGet req.headers "X-Trace-ID" = none ∨
      headerGet req.headers "X-Trace-ID" = some "") →
      resolveTraceId cfg req now tb = generate_trace_id now tb cfg.service_short := by
    rintro (hw | hw) <;> simp [resolveTraceId, hw]
  have hp : ∃ p, generate_trace_id now tb cfg.service_short = p ++ "-" ++ cfg.service_short := by
    refine ⟨String.mk (natToHexList now ++ '-' :: token_hex tb), ?_⟩
    apply String.ext
    simp only [String.data_append]
    show natToHexList now ++ '-' :: (token_hex tb ++ '-' :: cfg.service_short.data) =
      (natToHexList now ++ '-' :: token_hex tb) ++ ['-'] ++ cfg.service_short.data
    simp [List.append_assoc]
  have hsfx : ∃ sfx, generate_request_id rb cfg.service_short =
      cfg.service_short ++ "_" ++ sfx := by
    refine ⟨String.mk (token_hex rb), ?_⟩
    apply String.ext
    simp only [String.data_append]
    show cfg.service_short.data ++ '_' :: token_hex rb =
      cfg.service_short.data ++ ['_'] ++ token_hex rb
    simp [List.append_assoc]
  rcases dep with _ | d
  · refine ⟨_, dispatch_ok_result_none cfg req now tb rb dur resp st,
      successHeaders_trace cfg req now tb rb dur resp, hresolve_echo, hresolve_gen, hp,
      successHeaders_request cfg req now tb rb dur resp, hsfx,
      ⟨format2f dur, successHeaders_time cfg req now tb rb dur resp⟩,
      successHeaders_served cfg req now tb rb dur resp, ?_, ?_⟩
    · intro d hd
      exact absurd hd (by simp)
    · intro _
      exact successHeaders_deployment cfg req now tb rb dur resp
  · by_cases hd : d = ""
    · subst hd
      refine ⟨{ resp with headers := successHeaders cfg req now tb rb dur resp }, rfl,
        successHeaders_trace cfg req now tb rb dur resp, hresolve_echo, hresolve_gen, hp,
        successHeaders_request cfg req now tb rb dur resp, hsfx,
        ⟨format2f dur, successHeaders_time cfg req now tb rb dur resp⟩,
        successHeaders_served cfg req now tb rb dur resp, ?_, ?_⟩
      · intro d' hd' hne
        exact absurd (Option.some.inj hd').symm hne
      · intro _
        exact successHeaders_deployment cfg req now tb rb dur resp
    · have hres : (dispatch cfg (some d) req now tb rb dur (Except.ok resp) st).result =
          Except.ok { resp with headers :=
            (headerSet (successHeaders cfg req now tb rb dur resp) "X-Deployment-ID" d) } := by
        rw [dispatch_ok_result_some]
        rw [if_neg hd]
      refine ⟨_, hres, ?_, hresolve_echo, hresolve_gen, hp, ?_, hsfx,
        ⟨format2f dur, ?_⟩, ?_, ?_, ?_⟩
      · show headerGet (headerSet (successHeaders cfg req now tb rb dur resp)
          "X-Deployment-ID" d) "X-Trace-ID" = some (resolveTraceId cfg req now tb)
        rw [headerGet_headerSet,
          if_neg (by decide : ¬(lowerName "X-Trace-ID" = lowerName "X-Deployment-ID"))]
        exact successHeaders_trace cfg req now tb rb dur resp
      · show headerGet (headerSet (successHeaders cfg req now tb rb dur resp)
          "X-Deployment-ID" d) "X-Request-ID" = some (generate_request_id rb cfg.service_short)
        rw [headerGet_headerSet,
          if_neg (by decide : ¬(lowerName "X-Request-ID" = lowerName "X-Deployment-ID"))]
        exact successHeaders_request cfg req now tb rb dur resp
      · show headerGet (headerSet (successHeaders cfg req now tb rb dur resp)
          "X-Deployment-ID" d) "X-Response-Time" = some (format2f dur ++ "ms")
        rw [headerGet_headerSet,
          if_neg (by decide : ¬(lowerName "X-Response-Time" = lowerName "X-Deployment-ID"))]
        exact successHeaders_time cfg req now tb rb dur resp
      · show headerGet (headerSet (successHeaders cfg req now tb rb dur resp)
          "X-Deployment-ID" d) "X-Served-By" = some (cfg.service_name ++ "-" ++ cfg.short_commit)
        rw [headerGet_headerSet,
          if_neg (by decide : ¬(lowerName "X-Served-By" = lowerName "X-Deployment-ID"))]
        exact successHeaders_served cfg req now tb rb dur resp
      · intro d' hd' _
        have hdd : d = d' := Option.some.inj hd'
        subst hdd
        show headerGet (headerSet (successHeaders cfg req now tb rb dur resp)
          "X-Deployment-ID" d) "X-Deployment-ID" = some d
        rw [headerGet_headerSet, if_pos rfl]
      · rintro (hcontra | hcontra)
        · exact Option.noConfusion hcontra
        · exact absurd (Option.some.inj hcontra) hd

/-- C10: an inbound `X-Trace-ID` header that is present but empty is treated
as absent — the resolved trace id is the freshly generated one (never the
empty string), it is what gets written into the context store, and it is what
the response echoes. -/
theorem dispatch_empty_trace_header (cfg : MwConfig) (dep : Option String) (req : Request)
    (now : Nat) (tb rb : List Nat) (dur : Nat) (resp : Response) (st : TraceContext)
    (h : headerGet req.headers "X-Trace-ID" = some "") :
    resolveTraceId cfg req now tb = generate_trace_id now tb cfg.service_short ∧
    generate_trace_id now tb cfg.service_short ≠ "" ∧
    (∃ resp2, (dispatch cfg dep req now tb rb dur (Except.ok resp) st).result =
        Except.ok resp2 ∧
      headerGet resp2.headers "X-Trace-ID" =
        some (generate_trace_id now tb cfg.service_short)) ∧
    (set_trace_context (some (resolveTraceId cfg req now tb))
        (some (generate_request_id rb cfg.service_short))
        (headerGet req.headers "X-Parent-Span-ID") st).trace_id =
      some (generate_trace_id now tb cfg.service_short) := by
  have hres : resolveTraceId cfg req now tb = generate_trace_id now tb cfg.service_short := by
    simp [resolveTraceId, h]
  refine ⟨hres, ?_, ?_, ?_⟩
  · intro he
    have hdata : (generate_trace_id now tb cfg.service_short).data = [] := by
      rw [he]
    rw [show (generate_trace_id now tb cfg.service_short).data =
      natToHexList now ++ '-' :: (token_hex tb ++ '-' :: cfg.service_short.data) from rfl]
      at hdata
    rcases List.append_eq_nil.mp hdata with ⟨_, h2⟩
    exact List.noConfusion h2
  · rcases dep with _ | d
    · exact ⟨_, dispatch_ok_result_none cfg req now tb rb dur resp st,
        hres ▸ successHeaders_trace cfg req now tb rb dur resp⟩
    · by_cases hd : d = ""
      · subst hd
        exact ⟨{ resp with headers := successHeaders cfg req now tb rb dur resp }, rfl,
          hres ▸ successHeaders_trace cfg req now tb rb dur resp⟩
      · refine ⟨{ resp with headers :=
            (headerSet (successHeaders cfg req now tb rb dur resp) "X-Deployment-ID" d) },
          ?_, ?_⟩
        · rw [dispatch_ok_result_some, if_neg hd]
        · show headerGet (headerSet (successHeaders cfg req now tb rb dur resp)
            "X-Deployment-ID" d) "X-Trace-ID" = some (generate_trace_id now tb cfg.service_short)
          rw [headerGet_headerSet,
            if_neg (by decide : ¬(lowerName "X-Trace-ID" = lowerName "X-Deployment-ID"))]
          exact hres ▸ successHeaders_trace cfg req now tb rb dur resp
  · rw [show (set_trace_context (some (resolveTraceId cfg req now tb))
      (some (generate_request_id rb cfg.service_short))
      (headerGet req.headers "X-Parent-Span-ID") st).trace_id =
      some (resolveTraceId cfg req now tb) from rfl, hres]

/-- Witness for C10: a concrete request carrying an empty inbound trace
header resolves to the generated identifier. -/
theorem dispatch_empty_trace_header_witness :
    resolveTraceId
        { service_name := "orders", service_short := "orde", skip_paths := ["/health"],
          log_requests := true, short_commit := "abc1234" }
        { method := "GET", path := "/x", headers := [("X-Trace-ID", "")] }
        23 [1, 2, 3, 4, 5, 6] =
      generate_trace_id 23 [1, 2, 3, 4, 5, 6] "orde" :=
  (dispatch_empty_trace_header
    { service_name := "orders", service_short := "orde", skip_paths := ["/health"],
      log_requests := true, short_commit := "abc1234" }
    none
    { method := "GET", path := "/x", headers := [("X-Trace-ID", "")] }
    23 [1, 2, 3, 4, 5, 6] [6, 5, 4, 3, 2, 1] 150
    { status_code := 200, headers := [] }
    { trace_id := none, request_id := none, parent_span_id := none }
    (by decide)).1

end OptimaCore
